import Mathlib

/-!
Verification of the eli5professor mention-processing pipeline.

The definitions below are a shallow embedding of the Python sources:
`src/post_replies.py` (topic extraction, queue reading/sorting/removal,
dedup ledger, locking, batch processing), `src/get_discord_mentions.py`
(CSV appending, configuration), `src/ratelimit.py` (rate-limit backoff)
and `src/app.py` (response formatting).  Strings are modelled as
`List Char` where character-level work is needed; Python text-mode
details (csv quoting, `str.strip`, `re.sub` on the concrete patterns
used) are embedded directly.
-/

namespace Eli5

/-- Characters matched by Python `\w` (ASCII model): letters, digits, underscore. -/
def isWordChar (c : Char) : Bool := c.isAlphanum || c == '_'

/-- Characters removed by Python `str.strip()` / `str.rstrip()` with no argument. -/
def isPySpace (c : Char) : Bool :=
  c == ' ' || c == '\t' || c == '\n' || c == '\r' || c == '\x0b' || c == '\x0c'

/-- Python `str.strip()`. -/
def pyStrip (l : List Char) : List Char :=
  ((l.dropWhile isPySpace).reverse.dropWhile isPySpace).reverse

/-- Python `str.rstrip()`. -/
def pyRstrip (l : List Char) : List Char :=
  (l.reverse.dropWhile isPySpace).reverse

/-- The mention pattern text: `Config.TWITTER_ACCOUNT_HANDLE` with the leading `@`
(the regex `@eli5professor` before the `\b`). -/
def handleChars : List Char := "@eli5professor".data

/-- Case-insensitive literal match: consume `pat` from the front of `l`,
returning the remainder on success (models the literal part of the regex
with `re.IGNORECASE`). -/
def matchCI : List Char → List Char → Option (List Char)
  | [], l => some l
  | _ :: _, [] => none
  | p :: ps, c :: cs => if c.toLower == p.toLower then matchCI ps cs else none

/-- Match `@eli5professor` case-insensitively followed by a `\b` word boundary
(the next character, if any, is not a word character). -/
def matchHandle (l : List Char) : Option (List Char) :=
  match matchCI handleChars l with
  | none => none
  | some rest =>
    match rest with
    | [] => some []
    | c :: _ => if isWordChar c then none else some rest

/-- `re.sub(rf'@eli5professor\b', '', text, flags=re.IGNORECASE)`: left-to-right
scan replacing every non-overlapping match by the empty string.  The fuel
argument only serves structural recursion; every step consumes at least one
character, so fuel `= length` always suffices. -/
def subHandleF : Nat → List Char → List Char
  | 0, l => l
  | _ + 1, [] => []
  | fuel + 1, c :: rest =>
    match matchHandle (c :: rest) with
    | some after => subHandleF fuel after
    | none => c :: subHandleF fuel rest

def subHandle (l : List Char) : List Char := subHandleF l.length l

/-- `re.sub(r'#\w+', '', text)`: remove `#` followed by a maximal nonempty run
of word characters, everywhere in the text. -/
def subHashF : Nat → List Char → List Char
  | 0, l => l
  | _ + 1, [] => []
  | fuel + 1, c :: rest =>
    if c == '#' && isWordChar (rest.headD ' ') then
      subHashF fuel (rest.dropWhile isWordChar)
    else
      c :: subHashF fuel rest

def subHash (l : List Char) : List Char := subHashF l.length l

/-- The character set of `lstrip(":,-.@!# ")` in `extract_topic`. -/
def leadJunk (c : Char) : Bool :=
  c == ':' || c == ',' || c == '-' || c == '.' ||
  c == '@' || c == '!' || c == '#' || c == ' '

/-- The fully stripped text computed inside `MentionProcessor.extract_topic`:
remove the handle mentions, remove the hashtag tokens, `strip()` whitespace,
then `lstrip(":,-.@!# ")`. -/
def strippedTopic (text : String) : List Char :=
  (pyStrip (subHash (subHandle text.data))).dropWhile leadJunk

/-- `MentionProcessor.extract_topic` from `src/post_replies.py`
(`return topic if topic else None`). -/
def extract_topic (text : String) : Option String :=
  let topic := strippedTopic text
  if topic.isEmpty then none else some (String.mk topic)

example : extract_topic "@eli5professor explain gravity #eli5" = some "explain gravity" := by
  decide

example : extract_topic "@eli5professor gravity #eli5 more" = some "gravity  more" := by
  decide

example : extract_topic "@ELI5Professor  : quantum stuff" = some "quantum stuff" := by
  decide

example : extract_topic "@eli5professor #eli5" = none := by decide

/-! ## Work queue records and the delivery pipeline (`src/post_replies.py`) -/

/-- One row of `mentions.csv` as consumed by `MentionsReader`. -/
structure Rec where
  timestamp : String
  tweet_id : String
  author_id : String
  author_username : String
  text : String
deriving DecidableEq

/-- The sort key relation of `mentions.sort(key=lambda x: x.get('timestamp', ''))`. -/
def tsLe (a b : Rec) : Prop := a.timestamp ≤ b.timestamp

instance : DecidableRel tsLe := fun a b =>
  inferInstanceAs (Decidable (a.timestamp ≤ b.timestamp))

instance : IsTotal Rec tsLe := ⟨fun a b => le_total a.timestamp b.timestamp⟩

instance : IsTrans Rec tsLe := ⟨fun _ _ _ h1 h2 => le_trans h1 h2⟩

/-- Python's `list.sort` is a stable ascending sort; a stable insertion sort
computes the same list. -/
def sortByTimestamp (l : List Rec) : List Rec := l.insertionSort tsLe

/-- `MentionsReader.get_oldest_mentions`: stable sort by timestamp string,
then take the first `numMentions` records. -/
def get_oldest_mentions (numMentions : Nat) (queue : List Rec) : List Rec :=
  (sortByTimestamp queue).take numMentions

/-- `MentionsReader.remove_mentions_from_csv`: rewrite the queue keeping only
the rows whose `tweet_id` is not in the given set (no-op on the empty set). -/
def remove_mentions_from_csv (ids : List String) (queue : List Rec) : List Rec :=
  if ids.isEmpty then queue
  else queue.filter (fun r => decide (r.tweet_id ∉ ids))

/-- The deterministic fallback text of `ELI5Generator.generate_explanation`. -/
def apologyPR (topic : String) : String :=
  "Sorry, I couldn't explain '" ++ topic ++ "' right now. #ELI5"

/-- `ELI5Generator.generate_explanation`.  `genO topic` models the HTTP call to
the ELI5 API: `some e` is a 200 response whose JSON carries `explanation = e`;
`none` covers every failure branch of the source (non-200 status, exception,
missing JSON key), each of which returns the apology text. -/
def generate_explanation (genO : String → Option String) (topic : String) : String :=
  match genO topic with
  | some e => e
  | none => apologyPR topic

/-- Observable effects of one `process_mentions` run, in program order.
`queueRead` marks a `read_mentions` call; `deliver` carries the embed
description handed to `DiscordClient.send_message` and its outcome. -/
inductive Ev where
  | lockAcquire
  | lockRelease
  | queueRead
  | genCall (tweetId topic : String)
  | deliver (tweetId description : String) (ok : Bool)
  | ledgerWrite (tweetId : String)
  | queueRemove (tweetId : String)
deriving DecidableEq

/-- Does an event concern the given item id? -/
def Ev.touches : Ev → String → Bool
  | .lockAcquire, _ => false
  | .lockRelease, _ => false
  | .queueRead, _ => false
  | .genCall i _, id => i == id
  | .deliver i _ _, id => i == id
  | .ledgerWrite i, id => i == id
  | .queueRemove i, id => i == id

/-- The shared mutable state of the pipeline: the `mentions.csv` work queue and
the `/tmp/eli5_processed_ids.txt` dedup ledger (as its list of lines). -/
structure PipeState where
  queue : List Rec
  ledger : List String
deriving DecidableEq

/-- The body of the per-mention loop of `process_mentions` (lines 271–310):
dedup check against the preloaded `processed_ids`, topic extraction,
generation, Discord delivery; on delivery success the ledger append
(`save_processed_id`) runs first and the per-item queue removal second.
Returns the new state, the ids added to `processed_tweet_ids`, and the
emitted events. -/
def processOne (genO : String → Option String) (deliverOk : Rec → Bool)
    (processedIds : List String) (st : PipeState) (r : Rec) :
    PipeState × List String × List Ev :=
  if r.tweet_id ∈ processedIds then (st, [], [])
  else
    match extract_topic r.text with
    | none => (st, [], [])
    | some topic =>
      let explanation := generate_explanation genO topic
      if deliverOk r then
        ({ queue := remove_mentions_from_csv [r.tweet_id] st.queue,
           ledger := st.ledger ++ [r.tweet_id] },
         [r.tweet_id],
         [.genCall r.tweet_id topic, .deliver r.tweet_id explanation true,
          .ledgerWrite r.tweet_id, .queueRemove r.tweet_id])
      else
        (st, [],
         [.genCall r.tweet_id topic, .deliver r.tweet_id explanation false])

/-- The `for i, mention in enumerate(mentions, 1)` loop of `process_mentions`:
fold `processOne` over the batch, accumulating `processed_tweet_ids` and the
event trace.  `processed_ids` stays the set loaded at batch start (the source
never updates the in-memory set during the loop). -/
def processBatch (genO : String → Option String) (deliverOk : Rec → Bool)
    (processedIds : List String) :
    PipeState → List Rec → PipeState × List String × List Ev
  | st, [] => (st, [], [])
  | st, r :: rest =>
    let step := processOne genO deliverOk processedIds st r
    let next := processBatch genO deliverOk processedIds step.1 rest
    (next.1, step.2.1 ++ next.2.1, step.2.2 ++ next.2.2)

/-- Outcome of the `try:` block of `process_mentions`: the events it emitted,
the state at exit, and either a returned boolean or a propagated exception. -/
structure BodyRun where
  events : List Ev
  state : PipeState
  outcome : Except String Bool

/-- The `lock_fd = self.acquire_lock(); if lock_fd is None: return False` entry
and the `try: ... finally: self.release_lock(lock_fd)` structure of
`process_mentions`: if the lock is already held the function returns `False`
immediately with no other effect; otherwise the body runs and `release_lock`
executes after it on every exit path (normal return, early return, or
exception, the exception being re-raised after the `finally`). -/
def run_with_lock (lockHeld : Bool) (st0 : PipeState) (body : BodyRun) :
    Except String Bool × PipeState × List Ev :=
  if lockHeld then (.ok false, st0, [])
  else (body.outcome, body.state, .lockAcquire :: body.events ++ [.lockRelease])

/-- The `try:` block of `process_mentions` (lines 260–318): load the ledger,
take the 10 oldest mentions (`NUM_MENTIONS`), run the per-mention loop, do the
final cleanup removal of `processed_tweet_ids`, and report whether mentions
remain in the queue. -/
def process_mentions_body (genO : String → Option String) (deliverOk : Rec → Bool)
    (st : PipeState) : BodyRun :=
  let processedIds := st.ledger
  let mentions := get_oldest_mentions 10 st.queue
  if mentions.isEmpty then
    { events := [.queueRead], state := st, outcome := .ok false }
  else
    let run := processBatch genO deliverOk processedIds st mentions
    let cleanupIds := run.2.1
    let st2 : PipeState :=
      { queue := remove_mentions_from_csv cleanupIds run.1.queue,
        ledger := run.1.ledger }
    { events := .queueRead :: run.2.2 ++ cleanupIds.map Ev.queueRemove ++ [.queueRead],
      state := st2,
      outcome := .ok (st2.queue.length > 0) }

/-- `MentionsReader.process_mentions`, with the lock state and the generation
and delivery collaborators as oracles. -/
def process_mentions (lockHeld : Bool) (genO : String → Option String)
    (deliverOk : Rec → Bool) (st : PipeState) :
    Except String Bool × PipeState × List Ev :=
  run_with_lock lockHeld st (process_mentions_body genO deliverOk st)

/-! ## Claims C1–C3 -/

theorem processOne_parts (genO : String → Option String) (deliverOk : Rec → Bool)
    (processedIds : List String) (st : PipeState) (r : Rec) {id : String}
    (hid : id ∈ processedIds) :
    (∀ i ∈ (processOne genO deliverOk processedIds st r).2.1, i ≠ id) ∧
    (∀ ev ∈ (processOne genO deliverOk processedIds st r).2.2,
      Ev.touches ev id = false) := by
  by_cases hc : r.tweet_id ∈ processedIds
  · simp [processOne, hc]
  · have hne : r.tweet_id ≠ id := fun h => hc (h ▸ hid)
    cases htopic : extract_topic r.text with
    | none => simp [processOne, hc, htopic]
    | some topic =>
      by_cases hdel : deliverOk r
      · simp [processOne, hc, htopic, hdel, Ev.touches, hne]
      · simp [processOne, hc, htopic, hdel, Ev.touches, hne]

theorem processBatch_parts (genO : String → Option String) (deliverOk : Rec → Bool)
    (processedIds : List String) {id : String} (hid : id ∈ processedIds) :
    ∀ (batch : List Rec) (st : PipeState),
      (∀ i ∈ (processBatch genO deliverOk processedIds st batch).2.1, i ≠ id) ∧
      (∀ ev ∈ (processBatch genO deliverOk processedIds st batch).2.2,
        Ev.touches ev id = false) := by
  intro batch
  induction batch with
  | nil => intro st; constructor <;> simp [processBatch]
  | cons r rest ih =>
    intro st
    obtain ⟨h1, h2⟩ := processOne_parts genO deliverOk processedIds st r hid
    obtain ⟨h3, h4⟩ :=
      ih (processOne genO deliverOk processedIds st r).1
    constructor
    · intro i hi
      simp only [processBatch, List.mem_append] at hi
      rcases hi with h | h
      · exact h1 i h
      · exact h3 i h
    · intro ev hev
      simp only [processBatch, List.mem_append] at hev
      rcases hev with h | h
      · exact h2 ev h
      · exact h4 ev h

/-- **C1.** If an item id is already in the dedup ledger when a batch runs,
`process_mentions` emits no generation call, no delivery, no ledger write and
no queue removal for that item (the ledger check precedes generation and
delivery) — so replaying a batch after a crash between ledger write and queue
removal never re-delivers the item; and on a successful delivery of an unseen
item the step's effects are exactly, in order: generation, delivery, ledger
write, queue removal. -/
theorem C1_ledgered_item_never_redelivered
    (genO : String → Option String) (deliverOk : Rec → Bool) (st : PipeState)
    (id : String) (hid : id ∈ st.ledger) :
    (∀ ev ∈ (process_mentions false genO deliverOk st).2.2,
        Ev.touches ev id = false) ∧
    (∀ (pids : List String) (s : PipeState) (r : Rec) (topic : String),
        r.tweet_id ∉ pids → extract_topic r.text = some topic →
        deliverOk r = true →
        processOne genO deliverOk pids s r =
          ({ queue := remove_mentions_from_csv [r.tweet_id] s.queue,
             ledger := s.ledger ++ [r.tweet_id] }, [r.tweet_id],
           [.genCall r.tweet_id topic,
            .deliver r.tweet_id (generate_explanation genO topic) true,
            .ledgerWrite r.tweet_id, .queueRemove r.tweet_id])) := by
  constructor
  · intro ev hev
    by_cases hm : (get_oldest_mentions 10 st.queue).isEmpty
    · simp [process_mentions, run_with_lock, process_mentions_body, hm] at hev
      rcases hev with h | h | h <;> subst h <;> rfl
    · obtain ⟨h1, h2⟩ :=
        processBatch_parts genO deliverOk st.ledger hid
          (get_oldest_mentions 10 st.queue) st
      simp [process_mentions, run_with_lock, process_mentions_body, hm] at hev
      rcases hev with h | h | h | ⟨i, hi, h⟩ | h | h
      · subst h; rfl
      · subst h; rfl
      · exact h2 ev h
      · subst h; simpa [Ev.touches] using h1 i hi
      · subst h; rfl
      · subst h; rfl
  · intro pids s r topic hnp htopic hdel
    simp [processOne, hnp, htopic, hdel]

/-- Witness for C1 at a concrete queue, ledger and oracles. -/
theorem C1_witness :
    ("42" ∈ (PipeState.mk
        [⟨"2024-01-01T00:00:00", "42", "7", "alice",
          "@eli5professor explain gravity #eli5"⟩] ["42"]).ledger) ∧
    (∀ ev ∈ (process_mentions false (fun _ => none) (fun _ => true)
        (PipeState.mk
          [⟨"2024-01-01T00:00:00", "42", "7", "alice",
            "@eli5professor explain gravity #eli5"⟩] ["42"])).2.2,
      Ev.touches ev "42" = false) :=
  ⟨by decide,
   (C1_ledgered_item_never_redelivered (fun _ => none) (fun _ => true)
      (PipeState.mk
        [⟨"2024-01-01T00:00:00", "42", "7", "alice",
          "@eli5professor explain gravity #eli5"⟩] ["42"]) "42" (by decide)).1⟩

/-- **C2.** Per-record step behaviour: generation failure yields the
deterministic apology text and the step still goes on to deliver (the batch
is never aborted); delivery success performs the ledger write and then removes
the record's id from the queue; delivery failure leaves both the ledger and the
queue untouched (the item stays pending); and a record whose delivery fails
does not affect the processing of the remaining records of the batch. -/
theorem C2_per_record_state_machine :
    (∀ (genO : String → Option String) (topic : String),
        genO topic = none → generate_explanation genO topic = apologyPR topic) ∧
    (∀ (genO : String → Option String) (deliverOk : Rec → Bool)
        (pids : List String) (s : PipeState) (r : Rec) (topic : String),
        r.tweet_id ∉ pids → extract_topic r.text = some topic →
        deliverOk r = true →
        processOne genO deliverOk pids s r =
          ({ queue := remove_mentions_from_csv [r.tweet_id] s.queue,
             ledger := s.ledger ++ [r.tweet_id] }, [r.tweet_id],
           [.genCall r.tweet_id topic,
            .deliver r.tweet_id (generate_explanation genO topic) true,
            .ledgerWrite r.tweet_id, .queueRemove r.tweet_id])) ∧
    (∀ (genO : String → Option String) (deliverOk : Rec → Bool)
        (pids : List String) (s : PipeState) (r : Rec) (topic : String),
        r.tweet_id ∉ pids → extract_topic r.text = some topic →
        deliverOk r = false →
        processOne genO deliverOk pids s r =
          (s, [],
           [.genCall r.tweet_id topic,
            .deliver r.tweet_id (generate_explanation genO topic) false])) ∧
    (∀ (genO : String → Option String) (deliverOk : Rec → Bool)
        (pids : List String) (s : PipeState) (r : Rec) (rest : List Rec),
        deliverOk r = false →
        processBatch genO deliverOk pids s (r :: rest) =
          ((processBatch genO deliverOk pids s rest).1,
           (processBatch genO deliverOk pids s rest).2.1,
           (processOne genO deliverOk pids s r).2.2 ++
             (processBatch genO deliverOk pids s rest).2.2)) := by
  refine ⟨?_, ?_, ?_, ?_⟩
  · intro genO topic h
    simp [generate_explanation, h]
  · intro genO deliverOk pids s r topic hnp htopic hdel
    simp [processOne, hnp, htopic, hdel]
  · intro genO deliverOk pids s r topic hnp htopic hdel
    simp [processOne, hnp, htopic, hdel]
  · intro genO deliverOk pids s r rest hdel
    have h : (processOne genO deliverOk pids s r).1 = s ∧
        (processOne genO deliverOk pids s r).2.1 = [] := by
      by_cases hc : r.tweet_id ∈ pids
      · simp [processOne, hc]
      · cases htopic : extract_topic r.text <;>
          simp [processOne, hc, htopic, hdel]
    simp [processBatch, h.1, h.2]

/-- Witness for C2 at a concrete record and oracles. -/
theorem C2_witness :
    ((fun _ => (none : Option String)) "explain gravity" = none →
      generate_explanation (fun _ => none) "explain gravity" =
        apologyPR "explain gravity") ∧
    processOne (fun _ => none) (fun _ => true) []
        (PipeState.mk
          [⟨"2024-01-01T00:00:00", "42", "7", "alice",
            "@eli5professor explain gravity #eli5"⟩] [])
        ⟨"2024-01-01T00:00:00", "42", "7", "alice",
          "@eli5professor explain gravity #eli5"⟩ =
      ({ queue := remove_mentions_from_csv ["42"]
            (PipeState.mk
              [⟨"2024-01-01T00:00:00", "42", "7", "alice",
                "@eli5professor explain gravity #eli5"⟩] []).queue,
         ledger := [] ++ ["42"] }, ["42"],
       [.genCall "42" "explain gravity",
        .deliver "42" (generate_explanation (fun _ => none) "explain gravity") true,
        .ledgerWrite "42", .queueRemove "42"]) :=
  ⟨fun _ => C2_per_record_state_machine.1 (fun _ => none) "explain gravity" rfl,
   C2_per_record_state_machine.2.1 (fun _ => none) (fun _ => true) []
     (PipeState.mk
       [⟨"2024-01-01T00:00:00", "42", "7", "alice",
         "@eli5professor explain gravity #eli5"⟩] [])
     ⟨"2024-01-01T00:00:00", "42", "7", "alice",
       "@eli5professor explain gravity #eli5"⟩ "explain gravity"
     (by decide) (by decide) rfl⟩

/-- **C3.** If the lock is already held, `process_mentions` returns `False`
as a pure no-op: no events (so no queue read, no generation, no delivery) and
an unchanged state; when the lock is acquired, the event trace brackets the
body between `lockAcquire` and `lockRelease` for *every* body outcome —
normal return, early return, or exception — so `release_lock` runs on every
exit path, and in particular every non-held run ends with `lockRelease`. -/
theorem C3_lock_noop_and_guaranteed_release
    (genO : String → Option String) (deliverOk : Rec → Bool) (st : PipeState)
    (body : BodyRun) :
    process_mentions true genO deliverOk st = (.ok false, st, []) ∧
    (run_with_lock false st body).2.2 =
      .lockAcquire :: body.events ++ [.lockRelease] ∧
    process_mentions false genO deliverOk st =
      run_with_lock false st (process_mentions_body genO deliverOk st) ∧
    (process_mentions false genO deliverOk st).2.2.getLast? =
      some .lockRelease := by
  refine ⟨rfl, rfl, rfl, ?_⟩
  show (Ev.lockAcquire ::
      ((process_mentions_body genO deliverOk st).events ++ [Ev.lockRelease])).getLast?
    = some Ev.lockRelease
  rw [show Ev.lockAcquire ::
      ((process_mentions_body genO deliverOk st).events ++ [Ev.lockRelease]) =
      (Ev.lockAcquire :: (process_mentions_body genO deliverOk st).events) ++
        [Ev.lockRelease] from rfl]
  exact List.getLast?_concat _

/-! ## Claim C4: ordering of `get_oldest_mentions` -/

theorem filter_orderedInsert (r : Rec) (t : String) :
    ∀ l : List Rec,
      (List.orderedInsert tsLe r l).filter (fun x => x.timestamp == t) =
        if r.timestamp == t then
          r :: l.filter (fun x => x.timestamp == t)
        else l.filter (fun x => x.timestamp == t)
  | [] => by
      cases h : r.timestamp == t <;>
        simp [List.orderedInsert, List.filter, h]
  | y :: ys => by
      by_cases hle : tsLe r y
      · cases h : r.timestamp == t <;>
          cases hy : y.timestamp == t <;>
            simp [List.orderedInsert, hle, List.filter_cons, h, hy]
      · have ih := filter_orderedInsert r t ys
        cases h : r.timestamp == t
        · simp [List.orderedInsert, hle, List.filter_cons, h, ih]
        · have hrt : r.timestamp = t := by simpa using h
          have hy : (y.timestamp == t) = false := by
            refine beq_eq_false_iff_ne.mpr fun heq => hle ?_
            show r.timestamp ≤ y.timestamp
            rw [heq, hrt]
          simp [List.orderedInsert, hle, List.filter_cons, h, hy, ih]

/-- Stability of the timestamp sort: records with any given timestamp appear
in the sorted list in their original file order. -/
theorem sortByTimestamp_stable (q : List Rec) (t : String) :
    (sortByTimestamp q).filter (fun x => x.timestamp == t) =
      q.filter (fun x => x.timestamp == t) := by
  induction q with
  | nil => rfl
  | cons r rest ih =>
    simp only [sortByTimestamp, List.insertionSort] at *
    rw [filter_orderedInsert]
    cases h : r.timestamp == t <;> simp [List.filter_cons, h, ih]

/-- **C4.** `get_oldest_mentions n` returns at most `n` records, sorted by
ascending timestamp string, keeping records of equal timestamp in their
original file order; and for three records with strictly increasing
timestamps inserted in any of the six file orders, `get_oldest_mentions 2`
returns exactly the two oldest, oldest first. -/
theorem C4_get_oldest_mentions_ordering
    (n : Nat) (q : List Rec) (t : String) (a b c : Rec)
    (h1 : a.timestamp < b.timestamp) (h2 : b.timestamp < c.timestamp) :
    (get_oldest_mentions n q).length ≤ n ∧
    (get_oldest_mentions n q).Sorted tsLe ∧
    ((sortByTimestamp q).filter (fun x => x.timestamp == t) =
      q.filter (fun x => x.timestamp == t)) ∧
    get_oldest_mentions 2 [a, b, c] = [a, b] ∧
    get_oldest_mentions 2 [a, c, b] = [a, b] ∧
    get_oldest_mentions 2 [b, a, c] = [a, b] ∧
    get_oldest_mentions 2 [b, c, a] = [a, b] ∧
    get_oldest_mentions 2 [c, a, b] = [a, b] ∧
    get_oldest_mentions 2 [c, b, a] = [a, b] := by
  have hab : tsLe a b := le_of_lt h1
  have hbc : tsLe b c := le_of_lt h2
  have hac : tsLe a c := le_of_lt (lt_trans h1 h2)
  have nba : ¬ tsLe b a := not_le.mpr h1
  have ncb : ¬ tsLe c b := not_le.mpr h2
  have nca : ¬ tsLe c a := not_le.mpr (lt_trans h1 h2)
  refine ⟨?_, ?_, sortByTimestamp_stable q t, ?_, ?_, ?_, ?_, ?_, ?_⟩
  · exact List.length_take_le n _
  · exact List.Pairwise.sublist (List.take_sublist n _)
      (List.sorted_insertionSort tsLe q)
  all_goals
    simp [get_oldest_mentions, sortByTimestamp, List.insertionSort,
      List.orderedInsert, hab, hbc, hac, nba, ncb, nca]

/-- Witness for C4 at three concrete records. -/
theorem C4_witness :
    (("2024-01-01T00:00:00" : String) < "2024-01-02T00:00:00") ∧
    (("2024-01-02T00:00:00" : String) < "2024-01-03T00:00:00") ∧
    get_oldest_mentions 2
        [⟨"2024-01-03T00:00:00", "3", "a3", "u3", "t3"⟩,
         ⟨"2024-01-01T00:00:00", "1", "a1", "u1", "t1"⟩,
         ⟨"2024-01-02T00:00:00", "2", "a2", "u2", "t2"⟩] =
      [⟨"2024-01-01T00:00:00", "1", "a1", "u1", "t1"⟩,
       ⟨"2024-01-02T00:00:00", "2", "a2", "u2", "t2"⟩] :=
  ⟨by simp only [String.lt_iff_toList_lt]; decide,
   by simp only [String.lt_iff_toList_lt]; decide,
   (C4_get_oldest_mentions_ordering 2 [] ""
      ⟨"2024-01-01T00:00:00", "1", "a1", "u1", "t1"⟩
      ⟨"2024-01-02T00:00:00", "2", "a2", "u2", "t2"⟩
      ⟨"2024-01-03T00:00:00", "3", "a3", "u3", "t3"⟩
      (by simp only [String.lt_iff_toList_lt]; decide)
      (by simp only [String.lt_iff_toList_lt]; decide)).2.2.2.2.2.2.2.1⟩

/-! ## Claim C7: topic extraction -/

/-- **C7 counterexample.** `extract_topic` does not truncate at a secondary
mention or hashtag that follows the subject: a hashtag in the middle is
deleted in place (leaving the following words), and a secondary mention is
kept verbatim, so the result is not the text cut at that point. -/
theorem C7_counterexample :
    extract_topic "@eli5professor gravity #eli5 more" = some "gravity  more" ∧
    extract_topic "@eli5professor gravity #eli5 more" ≠ some "gravity" ∧
    extract_topic "@eli5professor gravity @alice rocks" =
      some "gravity @alice rocks" ∧
    extract_topic "@eli5professor gravity @alice rocks" ≠ some "gravity" := by
  refine ⟨by decide, by decide, by decide, by decide⟩

/-- **C7 amended.** `extract_topic` removes every occurrence of the bot-handle
mention (case-insensitively, at a word boundary) and every hashtag token
anywhere in the text, trims surrounding whitespace and leading punctuation,
and returns `None` exactly when the stripped result is empty; it does not
truncate at a secondary mention or hashtag, whose following text is kept.
On `"@eli5professor explain gravity #eli5"` it yields `"explain gravity"`. -/
theorem C7_extract_topic_amended (text : String) :
    (extract_topic text = none ↔ strippedTopic text = []) ∧
    extract_topic "@eli5professor explain gravity #eli5" =
      some "explain gravity" ∧
    extract_topic "@eli5professor gravity #eli5 more" = some "gravity  more" ∧
    extract_topic "@eli5professor gravity @alice rocks" =
      some "gravity @alice rocks" := by
  refine ⟨?_, by decide, by decide, by decide⟩
  constructor
  · intro h
    by_cases hs : (strippedTopic text).isEmpty
    · exact List.isEmpty_iff.mp hs
    · simp [extract_topic, hs] at h
  · intro h
    simp [extract_topic, h]

/-! ## Response formatting (`src/app.py`) and claim C8 -/

/-- The completion marker token `#ELI5`. -/
def markerL : List Char := ['#', 'E', 'L', 'I', '5']

/-- Python `s[:k]` for an `int` bound `k` (a negative bound counts from the
end, clamped at zero). -/
def pySlice (l : List Char) (k : Int) : List Char :=
  if 0 ≤ k then l.take k.toNat
  else l.take (l.length - (-k).toNat)

/-- `Config.MAX_RESPONSE_LENGTH` (`api.max_response_length` default, 280). -/
def MAX_RESPONSE_LENGTH : Int := 280

/-- `LLMClient._format_response`: append ` #ELI5` when the explanation does
not contain `#ELI5` (truncating to leave room if needed), then truncate with
`… #ELI5` if the result still exceeds the maximum length. -/
def format_response (explanation : List Char) (maxLength : Option Int) : List Char :=
  let m := maxLength.getD MAX_RESPONSE_LENGTH
  let e1 :=
    if markerL <:+: explanation then explanation
    else if (explanation.length : Int) + 6 ≤ m then
      pyRstrip explanation ++ (' ' :: markerL)
    else
      pyRstrip (pySlice explanation (m - 6)) ++ (' ' :: markerL)
  if (e1.length : Int) > m then
    pyRstrip (pySlice e1 (m - 3)) ++ ('…' :: ' ' :: markerL)
  else e1

/-- The deterministic apology of `generate_eli5_response` (also returned by
`_generate_with_local_model` when no dataset is available). -/
def apologyApp (subject : List Char) : List Char :=
  "Sorry, I couldn't explain '".data ++ subject ++
    "' right now. Try again later! #ELI5".data

/-- `LLMClient._generate_with_openai`, with the chat-completion message
content as an oracle: the source strips the content and formats it. -/
def generate_with_openai (content : List Char) (maxLength : Option Int) : List Char :=
  format_response (pyStrip content) maxLength

/-- Outcome of `_generate_with_local_model`, abstracting its dataset lookup:
`found e` = an explanation chosen from the dataset or template pool (then
formatted), `emptyDataset s` = the final fallback with the subject `s` it
extracted from the prompt, `raises` = an exception. -/
inductive LocalGen where
  | found (e : List Char)
  | emptyDataset (s : List Char)
  | raises

/-- `LLMClient.generate_eli5_response` (`src/app.py` lines 273–335): try
OpenAI when a key is configured, fall back to the local model when enabled,
otherwise or on failure return the deterministic apology.  `openaiOut = none`
models an exception inside `_generate_with_openai`. -/
def generate_eli5_response (hasKey useLocal : Bool)
    (openaiOut : Option (List Char)) (localOut : LocalGen)
    (subject : List Char) (maxLength : Option Int) : List Char :=
  let r1 : Option (List Char) :=
    if hasKey then
      match openaiOut with
      | some content => some (generate_with_openai content maxLength)
      | none => none
    else none
  match r1 with
  | some e => e
  | none =>
    if useLocal then
      match localOut with
      | .found e => format_response e maxLength
      | .emptyDataset s => apologyApp s
      | .raises => apologyApp subject
    else apologyApp subject

theorem marker_suffix_append (a b : List Char) :
    markerL <:+ a ++ (b ++ markerL) := by
  rw [← List.append_assoc]
  exact List.suffix_append _ _

theorem apologyApp_marker (subject : List Char) :
    markerL <:+ apologyApp subject := by
  have h : markerL <:+ "' right now. Try again later! #ELI5".data := by decide
  have h2 : "' right now. Try again later! #ELI5".data <:+ apologyApp subject := by
    unfold apologyApp
    exact List.suffix_append _ _
  exact h.trans h2

theorem format_response_marker (explanation : List Char) (maxLength : Option Int) :
    markerL <:+: format_response explanation maxLength ∧
    (¬ markerL <:+: explanation →
      markerL <:+ format_response explanation maxLength) := by
  unfold format_response
  by_cases hin : markerL <:+: explanation
  · simp only [if_pos hin]
    split
    · have hs : markerL <:+ pyRstrip
          (pySlice explanation (maxLength.getD MAX_RESPONSE_LENGTH - 3)) ++
          ('…' :: ' ' :: markerL) := marker_suffix_append _ ['…', ' ']
      exact ⟨hs.isInfix, fun h => absurd hin h⟩
    · exact ⟨hin, fun h => absurd hin h⟩
  · simp only [if_neg hin]
    have key : ∀ e1 : List Char, markerL <:+ e1 →
        markerL <:+ (if (e1.length : Int) > maxLength.getD MAX_RESPONSE_LENGTH then
          pyRstrip (pySlice e1 (maxLength.getD MAX_RESPONSE_LENGTH - 3)) ++
            ('…' :: ' ' :: markerL)
        else e1) := by
      intro e1 he
      split
      · exact marker_suffix_append _ ['…', ' ']
      · exact he
    have hend : markerL <:+
        (if (explanation.length : Int) + 6 ≤ maxLength.getD MAX_RESPONSE_LENGTH then
          pyRstrip explanation ++ (' ' :: markerL)
        else
          pyRstrip (pySlice explanation (maxLength.getD MAX_RESPONSE_LENGTH - 6)) ++
            (' ' :: markerL)) := by
      split
      · exact marker_suffix_append _ [' ']
      · exact marker_suffix_append _ [' ']
    have := key _ hend
    exact ⟨this.isInfix, fun _ => this⟩

/-- **C8 counterexample.** When the model output already contains `#ELI5`
somewhere other than the end and fits the length budget, `_format_response`
returns it unchanged, so `generate_eli5_response` returns a string that does
*not* end with the completion marker. -/
theorem C8_counterexample :
    generate_eli5_response true false (some "#ELI5 is a tag".data) .raises
        "gravity".data none = "#ELI5 is a tag".data ∧
    ¬ markerL <:+ "#ELI5 is a tag".data := by
  constructor
  · decide
  · decide

/-- **C8 amended.** Every result of `_format_response` *contains* the fixed
completion marker `#ELI5`, and ends with it whenever the input explanation
does not already contain the marker elsewhere; the deterministic apology ends
with the marker; and every result of `generate_eli5_response` — on every
success and failure path — contains the marker. -/
theorem C8_generation_marker (explanation subject : List Char)
    (maxLength : Option Int) (hasKey useLocal : Bool)
    (openaiOut : Option (List Char)) (localOut : LocalGen) :
    markerL <:+: format_response explanation maxLength ∧
    (¬ markerL <:+: explanation →
      markerL <:+ format_response explanation maxLength) ∧
    markerL <:+ apologyApp subject ∧
    markerL <:+:
      generate_eli5_response hasKey useLocal openaiOut localOut subject maxLength := by
  refine ⟨(format_response_marker explanation maxLength).1,
    (format_response_marker explanation maxLength).2,
    apologyApp_marker subject, ?_⟩
  cases hasKey <;> cases useLocal <;>
    rcases openaiOut with _ | content <;> rcases localOut with e | s | _ <;>
      simp only [generate_eli5_response, generate_with_openai] <;>
        first
        | exact (format_response_marker _ _).1
        | exact (apologyApp_marker _).isInfix

/-- Witness for C8 at a concrete explanation lacking the marker. -/
theorem C8_witness :
    markerL <:+ format_response "hello".data none :=
  (C8_generation_marker "hello".data "g".data none true true none .raises).2.1
    (by decide)

/-! ## Rate-limit backoff (`src/ratelimit.py`) and claim C5 -/

/-- Value of a nonempty all-digit numeral, most significant digit first. -/
def digitsToNat (l : List Char) : Option Nat :=
  if l.isEmpty then none
  else
    l.foldl
      (fun acc c =>
        acc.bind fun a =>
          if c.isDigit then some (a * 10 + (c.toNat - '0'.toNat)) else none)
      (some 0)

/-- Python `int(s)` on a plain decimal string (optional sign then digits);
`none` models the `ValueError` on anything else.  (Surrounding whitespace and
underscore separators, which Python also accepts, do not occur in any input
this development evaluates.) -/
def pyInt (s : String) : Option Int :=
  match s.data with
  | '-' :: rest => (digitsToNat rest).map (fun n => -(n : Int))
  | '+' :: rest => (digitsToNat rest).map (fun n => (n : Int))
  | l => (digitsToNat l).map (fun n => (n : Int))

/-- The rate-limit headers of a tweepy response:
`x-rate-limit-limit` / `x-rate-limit-remaining` / `x-rate-limit-reset`. -/
structure PyHeaders where
  limit : Option String
  remaining : Option String
  reset : Option String

/-- The dictionary built by `RateLimitChecker.extract_rate_limit_info`
(`None` values modelled as `none`). -/
structure RateLimitInfo where
  limit : Option Int
  remaining : Option Int
  reset : Option Int
  reset_in_seconds : Option Int
deriving DecidableEq

/-- A header value as the source consumes it: missing or empty (falsy) or
unparsable values leave the corresponding field `None`. -/
def parseHeaderVal (s : Option String) : Option Int :=
  match s with
  | some v => if v = "" then none else pyInt v
  | none => none

/-- `RateLimitChecker.extract_rate_limit_info` at current time `now`:
a parsed reset yields `max(reset_time - now, 0)` in `reset_in_seconds`. -/
def extract_rate_limit_info (h : PyHeaders) (now : Int) : RateLimitInfo :=
  { limit := parseHeaderVal h.limit
    remaining := parseHeaderVal h.remaining
    reset := parseHeaderVal h.reset
    reset_in_seconds := (parseHeaderVal h.reset).map (fun r => max (r - now) 0) }

/-- `RateLimitChecker.get_rate_limit_from_exception`: with a response, defer
entirely to header extraction; with no response attached, use the 15-minute
default wait and `remaining = 0`. -/
def get_rate_limit_from_exception (response : Option PyHeaders) (now : Int) :
    RateLimitInfo :=
  match response with
  | some h => extract_rate_limit_info h now
  | none =>
    { limit := none, remaining := some 0, reset := none,
      reset_in_seconds := some (15 * 60) }

/-- `get_wait_time_from_exception`.  The source reads
`rate_limit_info.get('reset_in_seconds', 16 * 60)`; the key is always present
in the dictionary, so the 16-minute default is dead and the value can be
Python `None`, in which case the comparison `seconds > 0` raises `TypeError`
— modelled as `none`. -/
def get_wait_time_from_exception (response : Option PyHeaders) (now : Int) :
    Option Int :=
  match (get_rate_limit_from_exception response now).reset_in_seconds with
  | none => none
  | some s => some (if s > 0 then s + 30 else s)

/-- **C5.** The backoff-floor half of the claim holds wherever the function
returns (`max(reset - now, 0)`, then `+30` only when positive; `15*60 + 30`
when no response is attached), but an exception carrying a response whose
headers lack a parsable `x-rate-limit-reset` makes the function evaluate
`None > 0` and raise `TypeError` instead of returning the conservative
default wait. -/
theorem C5_wait_time_crashes_without_reset_header :
    get_wait_time_from_exception (some ⟨none, none, none⟩) 1700000000 = none ∧
    get_wait_time_from_exception none 1700000000 = some (15 * 60 + 30) ∧
    get_wait_time_from_exception
        (some ⟨some "900", some "0", some "1700000100"⟩) 1700000000 =
      some (100 + 30) ∧
    get_wait_time_from_exception
        (some ⟨none, none, some "1600000000"⟩) 1700000000 = some 0 ∧
    (∀ (resp : Option PyHeaders) (now v : Int),
      get_wait_time_from_exception resp now = some v → 0 ≤ v) := by
  refine ⟨rfl, rfl, by decide, by decide, ?_⟩
  intro resp now v h
  rcases resp with _ | hd
  · simp [get_wait_time_from_exception, get_rate_limit_from_exception] at h
    omega
  · rcases hr : parseHeaderVal hd.reset with _ | r
    · simp [get_wait_time_from_exception, get_rate_limit_from_exception,
        extract_rate_limit_info, hr] at h
    · simp [get_wait_time_from_exception, get_rate_limit_from_exception,
        extract_rate_limit_info, hr] at h
      split at h <;> omega

/-- Witness for the non-negativity part of C5 at a concrete input. -/
theorem C5_witness : (0 : Int) ≤ 930 :=
  C5_wait_time_crashes_without_reset_header.2.2.2.2 none 1700000000 930 rfl

/-! ## Configuration loading and claim C9 -/

/-- `int()` wrapped as the exception it raises on a bad literal. -/
def pyIntE (s : String) : Except String Int :=
  match pyInt s with
  | some n => .ok n
  | none => .error ("invalid literal for int() with base 10: " ++ s)

structure GDMConfig where
  token : String
  channelId : Int
  serverId : Int
  targetUserId : Int
deriving DecidableEq

/-- `Config.__init__` of `src/get_discord_mentions.py`: the `int()`
conversions of the field assignments run first (and can raise), then the four
required checks each raise `ValueError` when the token is missing/falsy or an
id is zero. -/
def gdm_config_init (env : List (String × String)) : Except String GDMConfig :=
  match pyIntE ((env.lookup "DISCORD_CHANNEL_ID").getD "0") with
  | .error e => .error e
  | .ok ch =>
    match pyIntE ((env.lookup "DISCORD_SERVER_ID").getD "0") with
    | .error e => .error e
    | .ok sv =>
      match pyIntE ((env.lookup "TARGET_USER_ID").getD "0") with
      | .error e => .error e
      | .ok tg =>
        match env.lookup "DISCORD_BOT_TOKEN" with
        | none => .error "DISCORD_BOT_TOKEN environment variable is required"
        | some t =>
          if t = "" then
            .error "DISCORD_BOT_TOKEN environment variable is required"
          else if ch = 0 then
            .error "DISCORD_CHANNEL_ID environment variable is required"
          else if sv = 0 then
            .error "DISCORD_SERVER_ID environment variable is required"
          else if tg = 0 then
            .error "TARGET_USER_ID environment variable is required"
          else .ok ⟨t, ch, sv, tg⟩

/-- `main()` of `src/get_discord_mentions.py` wraps everything in
`except Exception: logger.error(...)` and falls off the end either way, so
the interpreter's process exit code is 0 whether or not `Config()` raised. -/
def gdm_main_exit_code (env : List (String × String)) : Nat :=
  match gdm_config_init env with
  | .error _ => 0
  | .ok _ => 0

/-- The hardcoded fallback webhook URL at the end of
`Config._get_discord_webhook_url` in `src/post_replies.py`. -/
def fallbackWebhookUrl : String :=
  "https://discord.com/api/webhooks/1386452801143705751/1U-yOwx8soK57EwEOMUBAD09fTFHEvWTmV9WKGpmXFnXgBgyspBaZuxK_fzI4Ub9AYXY"

/-- The secret-reference marker checked by `_get_discord_webhook_url`. -/
def secretRefMarker : String := "eli5-discord-bot/discord-credentials-dev:"

/-- `Config._get_discord_webhook_url`: environment variable first (resolving
a Secrets Manager reference), then AWS Secrets Manager (`secrets = none`
models an unavailable/failing call), and finally the hardcoded fallback URL.
Python truthiness makes an empty-string value fall through at each stage. -/
def get_discord_webhook_url (env : List (String × String))
    (secrets : Option (List (String × String))) : String :=
  let fromSecrets : String :=
    match secrets with
    | some creds =>
      match creds.lookup "DISCORD_WEBHOOK_URL" with
      | some v => if v = "" then fallbackWebhookUrl else v
      | none => fallbackWebhookUrl
    | none => fallbackWebhookUrl
  match env.lookup "DISCORD_WEBHOOK_URL" with
  | some url =>
    if url = "" then fromSecrets
    else if secretRefMarker.isPrefixOf url then
      match secrets with
      | some creds =>
        match creds.lookup ((url.splitOn ":").getD 1 "") with
        | some v => if v = "" then fromSecrets else v
        | none => fromSecrets
      | none => fromSecrets
    else url
  | none => fromSecrets

/-- **C9 counterexample.** With no credentials configured, the listener's
`Config()` raises, but `main()` swallows the exception and the process exits
with code 0, not non-zero; and the poster's required webhook URL is replaced
by the hardcoded fallback default instead of failing. -/
theorem C9_counterexample :
    gdm_config_init [] =
      .error "DISCORD_BOT_TOKEN environment variable is required" ∧
    gdm_main_exit_code [] = 0 ∧
    get_discord_webhook_url [] none = fallbackWebhookUrl := by
  refine ⟨rfl, rfl, rfl⟩

/-- **C9 amended.** A missing required credential makes the listener's
`Config.__init__` raise `ValueError` (no silent default for the token or the
ids), but `main()` catches every exception, so the process exits 0 — not
non-zero — on a configuration error; and the poster's `DISCORD_WEBHOOK_URL`
is not required at all: with nothing in the environment and no Secrets
Manager it silently falls back to a hardcoded default URL. -/
theorem C9_config_behaviour (env : List (String × String))
    (h : env.lookup "DISCORD_BOT_TOKEN" = none) :
    (∃ msg, gdm_config_init env = .error msg) ∧
    gdm_main_exit_code env = 0 ∧
    (∀ e2 : List (String × String), e2.lookup "DISCORD_WEBHOOK_URL" = none →
      get_discord_webhook_url e2 none = fallbackWebhookUrl) := by
  refine ⟨?_, ?_, ?_⟩
  · rcases h1 : pyIntE ((env.lookup "DISCORD_CHANNEL_ID").getD "0") with e | ch
    · exact ⟨e, by simp [gdm_config_init, h1]⟩
    · rcases h2 : pyIntE ((env.lookup "DISCORD_SERVER_ID").getD "0") with e | sv
      · exact ⟨e, by simp [gdm_config_init, h1, h2]⟩
      · rcases h3 : pyIntE ((env.lookup "TARGET_USER_ID").getD "0") with e | tg
        · exact ⟨e, by simp [gdm_config_init, h1, h2, h3]⟩
        · exact ⟨"DISCORD_BOT_TOKEN environment variable is required",
            by simp [gdm_config_init, h1, h2, h3, h]⟩
  · rcases hc : gdm_config_init env with e | c <;>
      simp [gdm_main_exit_code, hc]
  · intro e2 h2
    simp [get_discord_webhook_url, h2]

/-- Witness for C9 at the empty environment. -/
theorem C9_witness :
    (List.lookup "DISCORD_BOT_TOKEN" ([] : List (String × String)) = none) ∧
    gdm_main_exit_code [] = 0 :=
  ⟨rfl, (C9_config_behaviour [] rfl).2.1⟩

/-! ## The csv work-queue format: `csv.writer` in
`MentionsWriter.add_mention` and `csv.DictReader` in
`MentionsReader.read_mentions` (claims C6 and C10) -/

/-- Is `c` special for `csv.QUOTE_MINIMAL`: the delimiter, the quotechar, or
a line-terminator character? -/
def isCsvSpecial (c : Char) : Bool :=
  c == ',' || c == '"' || c == '\r' || c == '\n'

/-- Quote the field? (`QUOTE_MINIMAL`). -/
def needsQuote (f : List Char) : Bool := f.any isCsvSpecial

/-- Double every quotechar (`doublequote=True`). -/
def escapeQuotes (f : List Char) : List Char :=
  f.flatMap fun c => if c = '"' then ['"', '"'] else [c]

/-- One field as `csv.writer` emits it. -/
def writeField (f : List Char) : List Char :=
  if needsQuote f then '"' :: (escapeQuotes f ++ ['"']) else f

/-- The delimiter-join of a row's encoded fields (`",".join`). -/
def joinFields : List (List Char) → List Char
  | [] => []
  | [f] => writeField f
  | f :: rest => writeField f ++ (',' :: joinFields rest)

/-- One row as `csv.writer.writerow` emits it: comma-joined fields plus the
default `\r\n` terminator (both files are opened with `newline=''`). -/
def writeRow (fs : List (List Char)) : List Char :=
  joinFields fs ++ ['\r', '\n']

/-- Parser state of the csv reader: start of a record (no field yet — a
record terminator here is a blank line, zero fields), start of a subsequent
field after a delimiter (a terminator here ends a trailing empty field),
inside an unquoted field, inside a quoted field, or just after a quotechar
inside a quoted field. -/
inductive CsvSt where
  | begin
  | start
  | unq (acc : List Char)
  | q (acc : List Char)
  | afterq (acc : List Char)

/-- Consume the `\n` of a `\r\n` terminator. -/
def skipLF : List Char → List Char
  | '\n' :: r => r
  | r => r

/-- Parse one csv record (field characters accumulate reversed), returning
the fields and the input remaining after the record terminator.  This is
Python's `csv` reader behaviour: a field is quoted iff it starts with the
quotechar, `""` inside quotes is an escaped quote, a `\r`, `\n` or `\r\n`
outside quotes ends the record, and newlines inside quotes belong to the
field; a blank line yields zero fields. -/
def parseCsvRecord : CsvSt → List Char → List (List Char) × List Char
  | st, [] =>
    (match st with
     | .begin => []
     | .start => [[]]
     | .unq acc => [acc.reverse]
     | .q acc => [acc.reverse]
     | .afterq acc => [acc.reverse], [])
  | st, c :: rest =>
    match st with
    | .begin =>
      if c = '"' then parseCsvRecord (.q []) rest
      else if c = ',' then
        let next := parseCsvRecord .start rest
        ([] :: next.1, next.2)
      else if c = '\r' then ([], skipLF rest)
      else if c = '\n' then ([], rest)
      else parseCsvRecord (.unq [c]) rest
    | .start =>
      if c = '"' then parseCsvRecord (.q []) rest
      else if c = ',' then
        let next := parseCsvRecord .start rest
        ([] :: next.1, next.2)
      else if c = '\r' then ([[]], skipLF rest)
      else if c = '\n' then ([[]], rest)
      else parseCsvRecord (.unq [c]) rest
    | .unq acc =>
      if c = ',' then
        let next := parseCsvRecord .start rest
        (acc.reverse :: next.1, next.2)
      else if c = '\r' then ([acc.reverse], skipLF rest)
      else if c = '\n' then ([acc.reverse], rest)
      else parseCsvRecord (.unq (c :: acc)) rest
    | .q acc =>
      if c = '"' then parseCsvRecord (.afterq acc) rest
      else parseCsvRecord (.q (c :: acc)) rest
    | .afterq acc =>
      if c = '"' then parseCsvRecord (.q ('"' :: acc)) rest
      else if c = ',' then
        let next := parseCsvRecord .start rest
        (acc.reverse :: next.1, next.2)
      else if c = '\r' then ([acc.reverse], skipLF rest)
      else if c = '\n' then ([acc.reverse], rest)
      else parseCsvRecord (.unq (c :: acc)) rest

/-- All records of a file.  The fuel only serves structural recursion: each
record consumes at least one character, so fuel `= length` suffices. -/
def parseRows : Nat → List Char → List (List (List Char))
  | 0, _ => []
  | _ + 1, [] => []
  | fuel + 1, l =>
    let next := parseCsvRecord .begin l
    next.1 :: parseRows fuel next.2

/-- A Python value in a `DictReader` row dict: `None` (the `restval` of a
missing column), a field string, or the list of extra fields stored under
the rest key. -/
inductive PyVal where
  | pynone
  | str (s : String)
  | strs (l : List String)
deriving DecidableEq

/-- A `csv.DictReader` row dict (keys are the header names, plus the rest
key `None`): `dict(zip(fieldnames, row))`, then — when the row is longer
than the header — the extra fields `row[lf:]` under the rest key `None`,
or — when shorter — `restval` (`None`) for each missing header name. -/
def rowToDict : List (List Char) → List (List Char) → List (Option String × PyVal)
  | [], [] => []
  | [], v :: vs => [(none, PyVal.strs ((v :: vs).map String.mk))]
  | h :: hs, [] => (some (String.mk h), PyVal.pynone) :: rowToDict hs []
  | h :: hs, v :: vs =>
    (some (String.mk h), PyVal.str (String.mk v)) :: rowToDict hs vs

/-- `MentionsReader.read_mentions` on a file content: parse the records,
interpret the first record as the header (`DictReader.fieldnames`, taken
as-is), skip blank data rows (`while row == []` in `DictReader.__next__`),
and return one dict per remaining record.  (The source wraps the whole read
in a catch-all returning `[]`; the parse itself is total here.) -/
def read_mentions (content : List Char) : List (List (Option String × PyVal)) :=
  match parseRows content.length content with
  | [] => []
  | header :: rows =>
    (rows.filter (fun r => !r.isEmpty)).map (rowToDict header)

/-- The header row written by `MentionsWriter.ensure_csv_exists`. -/
def csvHeader : List Char :=
  "timestamp,tweet_id,author_id,author_username,text".data ++ ['\r', '\n']

/-- The header's five field names. -/
def headerFields : List (List Char) :=
  ["timestamp".data, "tweet_id".data, "author_id".data,
   "author_username".data, "text".data]

/-- `MentionsWriter.add_mention`: append one
`[timestamp, message_id, author_id, author_username, keyword]` row. -/
def add_mention (content : List Char)
    (timestamp messageId authorId authorUsername keyword : String) : List Char :=
  content ++ writeRow [timestamp.data, messageId.data, authorId.data,
    authorUsername.data, keyword.data]

theorem csvHeader_eq : csvHeader = joinFields headerFields ++ ['\r', '\n'] := by
  decide

theorem parseCsvRecord_unq_append (g : List Char) :
    ∀ (acc r : List Char), (∀ c ∈ g, isCsvSpecial c = false) →
      parseCsvRecord (.unq acc) (g ++ r) =
        parseCsvRecord (.unq (g.reverse ++ acc)) r := by
  induction g with
  | nil => intro acc r _; simp
  | cons c cs ih =>
    intro acc r hg
    have hc : isCsvSpecial c = false := hg c (by simp)
    have hne : (¬c = ',' ∧ ¬c = '"') ∧ ¬c = '\r' ∧ ¬c = '\n' := by
      simpa [isCsvSpecial, and_assoc] using hc
    have hg' : ∀ x ∈ cs, isCsvSpecial x = false := fun x hx =>
      hg x (List.mem_cons_of_mem _ hx)
    have hstep : parseCsvRecord (.unq acc) ((c :: cs) ++ r) =
        parseCsvRecord (.unq (c :: acc)) (cs ++ r) := by
      simp [parseCsvRecord, hne.1.1, hne.2.1, hne.2.2]
    rw [hstep, ih (c :: acc) r hg']
    simp [List.append_assoc]

theorem parseCsvRecord_q_escape (f : List Char) :
    ∀ (acc r : List Char),
      parseCsvRecord (.q acc) (escapeQuotes f ++ ('"' :: r)) =
        parseCsvRecord (.afterq (f.reverse ++ acc)) r := by
  induction f with
  | nil => intro acc r; simp [escapeQuotes, parseCsvRecord]
  | cons c cs ih =>
    intro acc r
    by_cases hc : c = '"'
    · subst hc
      have h1 : escapeQuotes ('"' :: cs) ++ ('"' :: r) =
          '"' :: ('"' :: (escapeQuotes cs ++ ('"' :: r))) := by
        simp [escapeQuotes]
      have h2 : parseCsvRecord (.q acc)
            ('"' :: ('"' :: (escapeQuotes cs ++ ('"' :: r)))) =
          parseCsvRecord (.q ('"' :: acc)) (escapeQuotes cs ++ ('"' :: r)) := by
        simp [parseCsvRecord]
      rw [h1, h2, ih ('"' :: acc) r]
      simp [List.append_assoc]
    · have h1 : escapeQuotes (c :: cs) ++ ('"' :: r) =
          c :: (escapeQuotes cs ++ ('"' :: r)) := by
        simp [escapeQuotes, hc]
      have h2 : parseCsvRecord (.q acc)
            (c :: (escapeQuotes cs ++ ('"' :: r))) =
          parseCsvRecord (.q (c :: acc)) (escapeQuotes cs ++ ('"' :: r)) := by
        simp [parseCsvRecord, hc]
      rw [h1, h2, ih (c :: acc) r]
      simp [List.append_assoc]

theorem parseCsvRecord_field_comma (f r : List Char) :
    parseCsvRecord .start (writeField f ++ (',' :: r)) =
      (f :: (parseCsvRecord .start r).1, (parseCsvRecord .start r).2) := by
  by_cases hq : needsQuote f
  · have h1 : writeField f ++ (',' :: r) =
        '"' :: (escapeQuotes f ++ ('"' :: (',' :: r))) := by
      simp [writeField, hq, List.append_assoc]
    have h2 : parseCsvRecord .start
          ('"' :: (escapeQuotes f ++ ('"' :: (',' :: r)))) =
        parseCsvRecord (.q []) (escapeQuotes f ++ ('"' :: (',' :: r))) := by
      simp [parseCsvRecord]
    rw [h1, h2, parseCsvRecord_q_escape f [] (',' :: r)]
    simp [parseCsvRecord]
  · have hall : ∀ c ∈ f, ¬ isCsvSpecial c = true := by
      simpa [needsQuote] using hq
    cases f with
    | nil => simp [writeField, parseCsvRecord]
    | cons c cs =>
      have hc : isCsvSpecial c = false := by simpa using hall c (by simp)
      have hne : (¬c = ',' ∧ ¬c = '"') ∧ ¬c = '\r' ∧ ¬c = '\n' := by
        simpa [isCsvSpecial, and_assoc] using hc
      have h1 : writeField (c :: cs) ++ (',' :: r) = c :: (cs ++ (',' :: r)) := by
        simp [writeField, hq]
      have h2 : parseCsvRecord .start (c :: (cs ++ (',' :: r))) =
          parseCsvRecord (.unq [c]) (cs ++ (',' :: r)) := by
        simp [parseCsvRecord, hne.1.1, hne.1.2, hne.2.1, hne.2.2]
      rw [h1, h2, parseCsvRecord_unq_append cs [c] (',' :: r)
        (fun x hx => by simpa using hall x (List.mem_cons_of_mem _ hx))]
      simp [parseCsvRecord]

theorem parseCsvRecord_field_crlf (f r : List Char) :
    parseCsvRecord .start (writeField f ++ ('\r' :: '\n' :: r)) = ([f], r) := by
  by_cases hq : needsQuote f
  · have h1 : writeField f ++ ('\r' :: '\n' :: r) =
        '"' :: (escapeQuotes f ++ ('"' :: ('\r' :: '\n' :: r))) := by
      simp [writeField, hq, List.append_assoc]
    have h2 : parseCsvRecord .start
          ('"' :: (escapeQuotes f ++ ('"' :: ('\r' :: '\n' :: r)))) =
        parseCsvRecord (.q []) (escapeQuotes f ++ ('"' :: ('\r' :: '\n' :: r))) := by
      simp [parseCsvRecord]
    rw [h1, h2, parseCsvRecord_q_escape f [] ('\r' :: '\n' :: r)]
    simp [parseCsvRecord, skipLF]
  · have hall : ∀ c ∈ f, ¬ isCsvSpecial c = true := by
      simpa [needsQuote] using hq
    cases f with
    | nil => simp [writeField, parseCsvRecord, skipLF]
    | cons c cs =>
      have hc : isCsvSpecial c = false := by simpa using hall c (by simp)
      have hne : (¬c = ',' ∧ ¬c = '"') ∧ ¬c = '\r' ∧ ¬c = '\n' := by
        simpa [isCsvSpecial, and_assoc] using hc
      have h1 : writeField (c :: cs) ++ ('\r' :: '\n' :: r) =
          c :: (cs ++ ('\r' :: '\n' :: r)) := by
        simp [writeField, hq]
      have h2 : parseCsvRecord .start (c :: (cs ++ ('\r' :: '\n' :: r))) =
          parseCsvRecord (.unq [c]) (cs ++ ('\r' :: '\n' :: r)) := by
        simp [parseCsvRecord, hne.1.1, hne.1.2, hne.2.1, hne.2.2]
      rw [h1, h2, parseCsvRecord_unq_append cs [c] ('\r' :: '\n' :: r)
        (fun x hx => by simpa using hall x (List.mem_cons_of_mem _ hx))]
      simp [parseCsvRecord, skipLF]

theorem parseCsvRecord_joinFields (fs : List (List Char)) :
    ∀ extra, fs ≠ [] →
      parseCsvRecord .start (joinFields fs ++ ('\r' :: '\n' :: extra)) =
        (fs, extra) := by
  induction fs with
  | nil => intro extra h; exact absurd rfl h
  | cons f rest ih =>
    intro extra _
    cases rest with
    | nil => simpa [joinFields] using parseCsvRecord_field_crlf f extra
    | cons g rs =>
      have h1 : joinFields (f :: g :: rs) ++ ('\r' :: '\n' :: extra) =
          writeField f ++ (',' :: (joinFields (g :: rs) ++ ('\r' :: '\n' :: extra))) := by
        simp [joinFields, List.append_assoc]
      rw [h1, parseCsvRecord_field_comma, ih extra (by simp)]

theorem parseCsvRecord_begin_eq_start (c : Char) (l : List Char)
    (h1 : ¬ c = '\r') (h2 : ¬ c = '\n') :
    parseCsvRecord .begin (c :: l) = parseCsvRecord .start (c :: l) := by
  by_cases hq : c = '"'
  · simp [parseCsvRecord, hq]
  · by_cases hc : c = ','
    · simp [parseCsvRecord, hq, hc]
    · simp [parseCsvRecord, hq, hc, h1, h2]

theorem joinFields_head (fs : List (List Char)) (h1 : fs ≠ []) (h2 : fs ≠ [[]]) :
    ∃ c t, joinFields fs = c :: t ∧ ¬ c = '\r' ∧ ¬ c = '\n' := by
  rcases fs with _ | ⟨f, rest⟩
  · exact absurd rfl h1
  by_cases hq : needsQuote f
  · rcases rest with _ | ⟨g, rs⟩
    · exact ⟨'"', escapeQuotes f ++ ['"'],
        by simp [joinFields, writeField, hq], by decide, by decide⟩
    · exact ⟨'"', (escapeQuotes f ++ ['"']) ++ (',' :: joinFields (g :: rs)),
        by simp [joinFields, writeField, hq], by decide, by decide⟩
  · cases f with
    | nil =>
      rcases rest with _ | ⟨g, rs⟩
      · exact absurd rfl h2
      · exact ⟨',', joinFields (g :: rs),
          by simp [joinFields, writeField, needsQuote], by decide, by decide⟩
    | cons c cs =>
      have hall : ∀ x ∈ c :: cs, ¬ isCsvSpecial x = true := by
        simpa [needsQuote] using hq
      have hc : isCsvSpecial c = false := by simpa using hall c (by simp)
      have hne : (¬c = ',' ∧ ¬c = '"') ∧ ¬c = '\r' ∧ ¬c = '\n' := by
        simpa [isCsvSpecial, and_assoc] using hc
      rcases rest with _ | ⟨g, rs⟩
      · exact ⟨c, cs, by simp [joinFields, writeField, hq], hne.2.1, hne.2.2⟩
      · exact ⟨c, cs ++ (',' :: joinFields (g :: rs)),
          by simp [joinFields, writeField, hq], hne.2.1, hne.2.2⟩

theorem parseCsvRecord_joinFields_begin (fs : List (List Char))
    (extra : List Char) (h1 : fs ≠ []) (h2 : fs ≠ [[]]) :
    parseCsvRecord .begin (joinFields fs ++ ('\r' :: '\n' :: extra)) =
      (fs, extra) := by
  obtain ⟨c, t, hct, hr, hn⟩ := joinFields_head fs h1 h2
  rw [hct, List.cons_append, parseCsvRecord_begin_eq_start c _ hr hn,
    ← List.cons_append, ← hct]
  exact parseCsvRecord_joinFields fs extra h1

theorem parseRows_pos (fuel : Nat) (l : List Char) (h : l ≠ []) :
    parseRows (fuel + 1) l =
      (parseCsvRecord .begin l).1 ::
        parseRows fuel (parseCsvRecord .begin l).2 := by
  cases l with
  | nil => exact absurd rfl h
  | cons c cs => rfl

theorem parseRows_header_row (fuel : Nat) (fs : List (List Char))
    (hfs : fs ≠ []) (hfs2 : fs ≠ [[]]) :
    parseRows (fuel + 2) (csvHeader ++ writeRow fs) = [headerFields, fs] := by
  have h1 : csvHeader ++ writeRow fs =
      joinFields headerFields ++
        ('\r' :: '\n' :: (joinFields fs ++ ('\r' :: '\n' :: []))) := by
    rw [csvHeader_eq]
    simp [writeRow, List.append_assoc]
  rw [h1]
  have hne1 : joinFields headerFields ++
      ('\r' :: '\n' :: (joinFields fs ++ ('\r' :: '\n' :: []))) ≠ [] := by
    apply List.ne_nil_of_length_pos
    simp [List.length_append]
  rw [parseRows_pos (fuel + 1) _ hne1,
    parseCsvRecord_joinFields_begin headerFields _ (by simp [headerFields])
      (by simp [headerFields])]
  have hne2 : joinFields fs ++ ('\r' :: '\n' :: ([] : List Char)) ≠ [] := by
    apply List.ne_nil_of_length_pos
    simp [List.length_append]
  rw [parseRows_pos fuel _ hne2, parseCsvRecord_joinFields_begin fs [] hfs hfs2]
  cases fuel <;> rfl

/-- **C6.** Appending a record with `add_mention` to a queue file holding the
header and reading it back with `read_mentions` yields a record equal in all
five fields to the one appended — for *every* value of the fields, including
text with embedded double quotes, commas and newlines — with the header row
interpreted as the header. -/
theorem C6_round_trip (ts tid aid user txt : String) :
    read_mentions (add_mention csvHeader ts tid aid user txt) =
      [[(some "timestamp", .str ts), (some "tweet_id", .str tid),
        (some "author_id", .str aid), (some "author_username", .str user),
        (some "text", .str txt)]] := by
  unfold read_mentions add_mention
  have h2 : (csvHeader ++ writeRow [ts.data, tid.data, aid.data,
      user.data, txt.data]).length =
      (csvHeader.length +
        (joinFields [ts.data, tid.data, aid.data, user.data, txt.data]).length)
        + 2 := by
    simp [writeRow, List.length_append]
    omega
  rw [h2, parseRows_header_row _ _ (by simp) (by simp)]
  rfl

/-- **C10 counterexample.** A malformed row (here: only two of the five
columns) among well-formed ones is *not* skipped by `read_mentions`: it is
returned as a record whose missing fields are Python `None`, alongside the
well-formed record — the result is not the well-formed records alone. -/
theorem C10_counterexample :
    read_mentions (csvHeader ++ ("2024-01-01T00:00:00,42\r\n".data ++
        "2024-01-02T00:00:00,43,7,alice,hello\r\n".data)) =
      [[(some "timestamp", .str "2024-01-01T00:00:00"),
        (some "tweet_id", .str "42"), (some "author_id", .pynone),
        (some "author_username", .pynone), (some "text", .pynone)],
       [(some "timestamp", .str "2024-01-02T00:00:00"),
        (some "tweet_id", .str "43"), (some "author_id", .str "7"),
        (some "author_username", .str "alice"), (some "text", .str "hello")]] ∧
    read_mentions (csvHeader ++ ("2024-01-01T00:00:00,42\r\n".data ++
        "2024-01-02T00:00:00,43,7,alice,hello\r\n".data)) ≠
      [[(some "timestamp", .str "2024-01-02T00:00:00"),
        (some "tweet_id", .str "43"), (some "author_id", .str "7"),
        (some "author_username", .str "alice"), (some "text", .str "hello")]] := by
  constructor
  · rfl
  · decide

/-- **C10 amended.** `read_mentions` never raises (in the source any
exception makes the whole read return `[]`), but malformed rows are not
skipped individually: a row dict's keys are always the header's names plus,
exactly when the row is longer than the header, the rest key `None`; a short
row is returned padded with `None` values, an over-long row is returned with
its extra fields under the rest key, both alongside the well-formed records;
only blank rows are skipped (`DictReader`'s blank-row skip). -/
theorem C10_malformed_rows_padded_not_skipped :
    (∀ (header row : List (List Char)),
      (rowToDict header row).map Prod.fst =
        header.map (fun h => some (String.mk h)) ++
          (if header.length < row.length then [(none : Option String)]
           else [])) ∧
    read_mentions (csvHeader ++ "2024-01-01T00:00:00,42\r\n".data) =
      [[(some "timestamp", .str "2024-01-01T00:00:00"),
        (some "tweet_id", .str "42"), (some "author_id", .pynone),
        (some "author_username", .pynone), (some "text", .pynone)]] ∧
    read_mentions
        (csvHeader ++ "2024-01-01T00:00:00,42,7,alice,hello,EXTRA\r\n".data) =
      [[(some "timestamp", .str "2024-01-01T00:00:00"),
        (some "tweet_id", .str "42"), (some "author_id", .str "7"),
        (some "author_username", .str "alice"), (some "text", .str "hello"),
        (none, .strs ["EXTRA"])]] ∧
    read_mentions (csvHeader ++ ("\r\n".data ++
        "2024-01-02T00:00:00,43,7,alice,hello\r\n".data)) =
      [[(some "timestamp", .str "2024-01-02T00:00:00"),
        (some "tweet_id", .str "43"), (some "author_id", .str "7"),
        (some "author_username", .str "alice"), (some "text", .str "hello")]] := by
  refine ⟨?_, rfl, rfl, rfl⟩
  intro header row
  induction header generalizing row with
  | nil => cases row <;> simp [rowToDict]
  | cons h hs ih =>
    cases row with
    | nil =>
      simp [rowToDict, ih []]
    | cons v vs =>
      simp [rowToDict, ih vs, Nat.succ_lt_succ_iff]

end Eli5
